import Mathlib

/-!
Shallow embedding of the GoldenSeed API (src/api/main.py and src/api/database.py).

The external pieces (the UniversalQKD generator, hashlib.sha256, the supabase
client) are modelled as parameters of an `Env` record: the generator is a
stream `Nat → Option (List Nat)` giving the n-th 16-byte chunk drawn from a
fresh generator (`none` models `next()` raising), `sha` is the raw SHA-256
digest function, `hashKey` is `hash_api_key` (sha256 hexdigest of the key),
and the supabase tables/RPCs are explicit data with flags for the places the
Python code can see an exception.  Everything the handlers do with those
parameters (prefix stripping, ordering of checks, encoding, logging) is
translated line by line from the source.
-/

namespace GoldenSeed

/-! ### Python `bytes.hex()` / `bytes.fromhex()` -/

/-- Lowercase hex digit for a value `n < 16` (`'0'..'9'`, `'a'..'f'`). -/
def hexDigitChar (n : Nat) : Char :=
  if n < 10 then Char.ofNat (48 + n) else Char.ofNat (87 + n)

/-- Python `bytes.hex()`: two lowercase hex digits per byte, in order. -/
def bytesToHexL : List Nat → List Char
  | [] => []
  | b :: rest => hexDigitChar (b / 16) :: hexDigitChar (b % 16) :: bytesToHexL rest

def bytesToHex (bs : List Nat) : String :=
  String.mk (bytesToHexL bs)

/-- Numeric value of a lowercase hex digit. -/
def hexDigitVal (c : Char) : Nat :=
  if c.toNat ≤ 57 then c.toNat - 48 else c.toNat - 87

/-- Python `bytes.fromhex`: decode consecutive pairs of hex digits. -/
def hexToBytes : List Char → List Nat
  | c1 :: c2 :: rest => (16 * hexDigitVal c1 + hexDigitVal c2) :: hexToBytes rest
  | _ => []

/-- Recogniser for the characters `bytes.hex()` can produce. -/
def isLowerHex (c : Char) : Bool :=
  (('0' ≤ c && c ≤ '9') || ('a' ≤ c && c ≤ 'f'))

/-! ### base64 (standard alphabet, `=` padding), as used for format="binary" -/

def b64Char (n : Nat) : Char :=
  if n < 26 then Char.ofNat (65 + n)
  else if n < 52 then Char.ofNat (97 + (n - 26))
  else if n < 62 then Char.ofNat (48 + (n - 52))
  else if n = 62 then '+'
  else '/'

def base64Encode : List Nat → List Char
  | [] => []
  | [b1] => [b64Char (b1 / 4), b64Char (b1 % 4 * 16), '=', '=']
  | [b1, b2] => [b64Char (b1 / 4), b64Char (b1 % 4 * 16 + b2 / 16), b64Char (b2 % 16 * 4), '=']
  | b1 :: b2 :: b3 :: rest =>
    b64Char (b1 / 4) :: b64Char (b1 % 4 * 16 + b2 / 16) ::
      b64Char (b2 % 16 * 4 + b3 / 64) :: b64Char (b3 % 64) :: base64Encode rest

/-! ### Python string operations used by `verify_api_key` (main.py lines 60-63) -/

/-- Python `str.startswith`. -/
def pyStartsWith (s pre : String) : Bool :=
  pre.toList.isPrefixOf s.toList

/-- The pattern `"Bearer "` as a character list. -/
def bearerPat : List Char := ['B', 'e', 'a', 'r', 'e', 'r', ' ']

/-- Worker for `str.replace("Bearer ", "")`, structurally recursive on a
fuel bound (any fuel ≥ the list length gives the replace semantics): at each
position, if `"Bearer "` starts there it is skipped whole, otherwise the
character is kept — Python's left-to-right non-overlapping replacement. -/
def removeBearerGo : Nat → List Char → List Char
  | _, [] => []
  | 0, l => l
  | fuel + 1, c :: rest =>
    if bearerPat.isPrefixOf (c :: rest) then removeBearerGo fuel (rest.drop 6)
    else c :: removeBearerGo fuel rest

/-- Python `authorization.replace("Bearer ", "")` (main.py line 63): removes
every occurrence of `"Bearer "`, not just a leading one. -/
def removeBearerL (l : List Char) : List Char :=
  removeBearerGo l.length l

def removeBearer (s : String) : String :=
  String.mk (removeBearerL s.toList)

/-- Whether `"Bearer "` occurs anywhere in the list. -/
def containsBearerL : List Char → Bool
  | [] => false
  | c :: rest => bearerPat.isPrefixOf (c :: rest) || containsBearerL rest

/-! ### Data model (database.py tables, main.py principal dict) -/

structure ApiKeyRow where
  id : String
  user_id : String
  key_hash : String
  active : Bool
deriving DecidableEq

structure UserRow where
  id : String
  email : String
deriving DecidableEq

structure SubRow where
  user_id : String
  tier : String
  chunks_limit : Nat
  rate_limit : Nat
  active : Bool
deriving DecidableEq

/-- The dict returned by `database.verify_api_key` / demo mode. -/
structure Principal where
  user_id : String
  api_key_id : String
  email : String
  tier : String
  chunks_limit : Nat
  rate_limit : Nat
deriving DecidableEq

/-- Outcome of a supabase RPC `.execute()`: either a returned payload
(possibly NULL) or a raised exception. -/
inductive RPCResult (α : Type) where
  | ok (data : Option α)
  | raised
deriving DecidableEq

/-- The backing store as seen by database.py: table contents, whether the
client was initialised (`supabase` is not None), and whether the individual
`.execute()` calls inside `verify_api_key` raise. -/
structure DB where
  api_keys : List ApiKeyRow
  users : List UserRow
  subscriptions : List SubRow
  connected : Bool
  selectRaises : Bool
  updateRaises : Bool

/-- Everything external the handlers consult. -/
structure Env where
  gen : Nat → Option (List Nat)
  sha : List Nat → List Nat
  hashKey : String → String
  db : DB
  rateRPC : String → Nat → RPCResult Bool
  usageRPC : String → RPCResult Nat
  genAvail : Bool
  dbAvail : Bool

/-! ### database.py adapters -/

/-- database.py `verify_api_key` (lines 30-88).  All three selects and the
`last_used_at` update sit inside one `try`; any raise is caught and the
function returns `None`.  `.eq(...).execute()` row filters are modelled with
`List.find?` (first matching row = `data[0]`). -/
def db_verify_api_key (env : Env) (key : String) : Option Principal :=
  if !env.db.connected then none
  else if env.db.selectRaises then none
  else
    let key_hash := env.hashKey key
    match env.db.api_keys.find? (fun r => r.key_hash == key_hash && r.active) with
    | none => none
    | some key_record =>
      match env.db.users.find? (fun u => u.id == key_record.user_id) with
      | none => none
      | some user =>
        match env.db.subscriptions.find?
            (fun s => s.user_id == key_record.user_id && s.active) with
        | none => none
        | some subscription =>
          -- the update of last_used_at is inside the same try/except:
          -- if it raises, the except clause returns None
          if env.db.updateRaises then none
          else some { user_id := key_record.user_id, api_key_id := key_record.id,
                      email := user.email, tier := subscription.tier,
                      chunks_limit := subscription.chunks_limit,
                      rate_limit := subscription.rate_limit }

/-- database.py `check_rate_limit` (lines 102-115): `True` when the client is
absent or the RPC raises; otherwise `result.data or False`. -/
def check_rate_limit (connected : Bool) (rpc : String → Nat → RPCResult Bool)
    (user_id : String) (limit : Nat) : Bool :=
  if !connected then true
  else match rpc user_id limit with
    | .raised => true
    | .ok none => false
    | .ok (some b) => b

/-- database.py `get_monthly_usage` (lines 90-100): `0` when the client is
absent or the RPC raises; otherwise `result.data or 0`. -/
def get_monthly_usage (connected : Bool) (rpc : String → RPCResult Nat)
    (user_id : String) : Nat :=
  if !connected then 0
  else match rpc user_id with
    | .raised => 0
    | .ok none => 0
    | .ok (some n) => n

/-! ### HTTP errors raised by the middleware and handlers -/

inductive HErr where
  | missingKey
  | badScheme
  | invalidKey
  | rateLimited (limit : Nat)
  | quotaExceeded (limit : Nat)
  | genUnavailable
  | genFailed
deriving DecidableEq

def HErr.status : HErr → Nat
  | .missingKey => 401
  | .badScheme => 401
  | .invalidKey => 403
  | .rateLimited _ => 429
  | .quotaExceeded _ => 429
  | .genUnavailable => 500
  | .genFailed => 500

/-! ### Observable events (adapter calls made while serving a request) -/

/-- The row `database.log_usage` is asked to insert (`response_time_ms` is
wall-clock and not modelled). -/
structure LogEntry where
  user_id : String
  api_key_id : String
  endpoint : String
  chunks_generated : Nat
  status_code : Nat
deriving DecidableEq

inductive Event where
  | authCheck
  | rateCheck
  | quotaCheck
  | logWrite (entry : LogEntry)
deriving DecidableEq

/-! ### main.py `verify_api_key` (lines 55-101) -/

def demoPrincipal : Principal :=
  { user_id := "demo-user", api_key_id := "demo-key", email := "demo@goldenseed.io",
    tier := "free", chunks_limit := 10000, rate_limit := 100 }

/-- main.py `verify_api_key`, instrumented with an event trace: `.authCheck`
marks one execution of the dependency, `.rateCheck` / `.quotaCheck` the calls
to `check_rate_limit` / `get_monthly_usage`.  `if not authorization` is true
for both a missing header and an empty one. -/
def verify_api_key (env : Env) (authorization : Option String) :
    Except HErr Principal × List Event :=
  match authorization with
  | none => (.error .missingKey, [.authCheck])
  | some auth =>
    if auth = "" then (.error .missingKey, [.authCheck])
    else if !pyStartsWith auth "Bearer " then (.error .badScheme, [.authCheck])
    else
      let api_key := removeBearer auth
      if !env.dbAvail then
        -- demo-mode fallback: one hardcoded key, no rate/quota checks
        if api_key = "gs_demo_key_12345" then (.ok demoPrincipal, [.authCheck])
        else (.error .invalidKey, [.authCheck])
      else
        match db_verify_api_key env api_key with
        | none => (.error .invalidKey, [.authCheck])
        | some user =>
          if !check_rate_limit env.db.connected env.rateRPC user.user_id user.rate_limit then
            (.error (.rateLimited user.rate_limit), [.authCheck, .rateCheck])
          else
            let current_usage := get_monthly_usage env.db.connected env.usageRPC user.user_id
            if user.chunks_limit ≤ current_usage then
              (.error (.quotaExceeded user.chunks_limit),
               [.authCheck, .rateCheck, .quotaCheck])
            else (.ok user, [.authCheck, .rateCheck, .quotaCheck])

/-! ### main.py request/response models and the `generate` handler -/

inductive Format where
  | hex
  | json
  | binary
deriving DecidableEq

structure GenerateRequest where
  seed : Nat := 0
  chunks : Nat := 100
  format : Format := .hex
  skip : Nat := 0
deriving DecidableEq

/-- The handler's local `data` value (main.py lines 184-190): a list of
strings for hex/binary formats and a list of byte arrays for format="json".
This is only an intermediate value — the declared response model accepts
only the string shape (see `respModel`). -/
inductive RespData where
  | strs (l : List String)
  | arrays (l : List (List Nat))
deriving DecidableEq

/-- Validation of the `data` field by the `GenerateResponse` pydantic model
(main.py line 112, `data: List[str]`): a list of strings is accepted; the
list-of-ints data produced for format="json" is rejected, raising
ValidationError at construction (main.py line 211). -/
def respModel : RespData → Option (List String)
  | .strs l => some l
  | .arrays _ => none

/-- The validated response: `data` holds strings only, as declared by the
pydantic model. -/
structure GenerateResponse where
  data : List String
  hash : String
  chunks_generated : Nat
  seed : Nat
  verification_url : String
deriving DecidableEq

/-- Sequentially draw one chunk per element of `l`; `none` as soon as one
draw raises (models the loop of `next(gen)` calls). -/
def optionMapList (g : Nat → Option (List Nat)) : List Nat → Option (List (List Nat))
  | [] => some []
  | n :: rest =>
    match g n, optionMapList g rest with
    | some c, some cs => some (c :: cs)
    | _, _ => none

/-- main.py lines 168-181: a fresh generator is advanced `skip` times, then
`seed` times, and the next `chunks` draws are kept.  Positions
`0 .. skip+seed-1` are discarded; the result is the chunks at positions
`skip+seed .. skip+seed+chunks-1`, or `none` if any draw raises. -/
def runGenerator (g : Nat → Option (List Nat)) (skip seed chunks : Nat) :
    Option (List (List Nat)) :=
  (optionMapList g (List.range (skip + seed + chunks))).map
    (fun l => l.drop (skip + seed))

/-- main.py lines 184-190. -/
def encodeData (fmt : Format) (cbs : List (List Nat)) : RespData :=
  match fmt with
  | .hex => .strs (cbs.map bytesToHex)
  | .json => .arrays cbs
  | .binary => .strs (cbs.map (fun c => String.mk (base64Encode c)))

/-- The `auth` argument of the `generate` coroutine: the resolved principal
dict when the endpoint is dispatched over HTTP, or the un-resolved
`Depends(verify_api_key)` default object when `generate` is called directly
as a plain function (which is what `batch_generate` does). -/
inductive AuthArg where
  | principal (p : Principal)
  | dependsDefault

/-- main.py lines 192-217: the response assembled from the drawn chunks and
the already-validated `data` strings — the SHA-256 hexdigest of the
concatenated raw chunks, and the verification URL built from the first 16
characters of that hexdigest. -/
def makeResponse (env : Env) (r : GenerateRequest) (chunks_bytes : List (List Nat))
    (data : List String) : GenerateResponse :=
  let hash_value := bytesToHex (env.sha chunks_bytes.flatten)
  { data := data, hash := hash_value,
    chunks_generated := r.chunks, seed := r.seed,
    verification_url := "https://goldenseed.io/verify/" ++
      String.mk (hash_value.toList.take 16) }

/-- The row passed to `log_usage` (main.py lines 202-209). -/
def usageEntry (p : Principal) (r : GenerateRequest) : LogEntry :=
  { user_id := p.user_id, api_key_id := p.api_key_id,
    endpoint := "/api/v1/generate", chunks_generated := r.chunks,
    status_code := 200 }

/-- main.py `generate` (lines 152-220) as the plain coroutine body, after
the framework has (or has not) supplied `auth`.  Inside the `try` block a
raise from the generator loop is caught and turned into a 500.  When
`DATABASE_AVAILABLE` and `auth` is the `Depends` default object,
`auth["user_id"]` at the `log_usage` call raises `TypeError`, which the same
`except` clause turns into a 500 before anything is logged or returned.
Otherwise `log_usage` runs first (lines 199-209; the `.logWrite` event is
the insert it is asked to perform — database.log_usage swallows insert
failures), and only then is `GenerateResponse` built (line 211): its pydantic
model rejects the list-of-ints data of format="json" (`respModel` = none),
so that ValidationError is caught by the same `except` and becomes a 500 —
after the usage row was already written. -/
def generate (env : Env) (auth : AuthArg) (r : GenerateRequest) :
    Except HErr GenerateResponse × List Event :=
  if !env.genAvail then (.error .genUnavailable, [])
  else
    match runGenerator env.gen r.skip r.seed r.chunks with
    | none => (.error .genFailed, [])
    | some chunks_bytes =>
      if env.dbAvail then
        match auth with
        | .principal p =>
          match respModel (encodeData r.format chunks_bytes) with
          | some data =>
            (.ok (makeResponse env r chunks_bytes data), [.logWrite (usageEntry p r)])
          | none => (.error .genFailed, [.logWrite (usageEntry p r)])
        | .dependsDefault => (.error .genFailed, [])
      else
        match respModel (encodeData r.format chunks_bytes) with
        | some data => (.ok (makeResponse env r chunks_bytes data), [])
        | none => (.error .genFailed, [])

/-- The route `POST /api/v1/generate` as dispatched over HTTP: the framework resolves
the `Depends(verify_api_key)` dependency exactly once, then runs the handler
body with the resolved principal. -/
def generate_route (env : Env) (authorization : Option String)
    (r : GenerateRequest) : Except HErr GenerateResponse × List Event :=
  match verify_api_key env authorization with
  | (.error e, evs) => (.error e, evs)
  | (.ok p, evs) =>
    let out := generate env (.principal p) r
    (out.1, evs ++ out.2)

/-! ### main.py `batch_generate` (lines 285-312) -/

structure BatchRequest where
  seeds : List Nat
  chunks_per_seed : Nat := 100
deriving DecidableEq

/-- The loop body of `batch_generate`: each seed re-invokes `generate`
directly with `format="hex"` and `skip` left at its default 0.  The call
`await generate(gen_request, auth)` passes the principal positionally into
the unused `req: Request` slot, so the `auth` parameter keeps its
`Depends(verify_api_key)` default object — no re-authentication happens and
the contained call sees `AuthArg.dependsDefault`.  An exception from a
contained call propagates and aborts the loop. -/
def batchLoop (env : Env) (cps : Nat) :
    List Nat → Except HErr (List GenerateResponse) × List Event
  | [] => (.ok [], [])
  | s :: rest =>
    match generate env .dependsDefault
        { seed := s, chunks := cps, format := .hex, skip := 0 } with
    | (.error e, evs) => (.error e, evs)
    | (.ok r, evs) =>
      match batchLoop env cps rest with
      | (.error e, evs2) => (.error e, evs ++ evs2)
      | (.ok rs, evs2) => (.ok (r :: rs), evs ++ evs2)

/-- The route `POST /api/v1/batch` as dispatched over HTTP: one dependency resolution,
then the loop over the seeds. -/
def batch_generate_route (env : Env) (authorization : Option String)
    (breq : BatchRequest) : Except HErr (List GenerateResponse) × List Event :=
  match verify_api_key env authorization with
  | (.error e, evs) => (.error e, evs)
  | (.ok _, evs) =>
    if !env.genAvail then (.error .genUnavailable, evs)
    else
      let out := batchLoop env breq.chunks_per_seed breq.seeds
      (out.1, evs ++ out.2)

/-! ### main.py `coinflip_stats` (lines 242-283) -/

structure CoinFlipStatsResponse where
  heads : Nat
  tails : Nat
  total : Nat
  /-- the exact value of `heads / flips`; the Python response additionally
  rounds it to 6 decimal places for display, which no claim touches. -/
  headsFrac : ℚ
  perfect_balance : Bool
deriving DecidableEq

/-- Takes `byte_val[0]` for every drawn chunk, `none` if a chunk is empty
(in which case `next(gen)[0]` raises IndexError, caught into a 500). -/
def firstBytes : List (List Nat) → Option (List Nat)
  | [] => some []
  | c :: rest =>
    match c.head?, firstBytes rest with
    | some b, some bs => some (b :: bs)
    | _, _ => none

/-- main.py `coinflip_stats`: advance a fresh generator `seed` times, draw
`flips` chunks, count the draws whose first byte has its least significant
bit set, and flag `perfect_balance` when `|heads/flips - 0.5| < 0.001`. -/
def coinflip_stats (gen : Nat → Option (List Nat)) (seed flips : Nat) :
    Option CoinFlipStatsResponse :=
  match optionMapList gen (List.range (seed + flips)) with
  | none => none
  | some cs =>
    match firstBytes (cs.drop seed) with
    | none => none
    | some bs =>
      let heads := (bs.filter (fun b => b &&& 1 != 0)).length
      let ratioQ : ℚ := (heads : ℚ) / (flips : ℚ)
      some { heads := heads, tails := flips - heads, total := flips,
             headsFrac := ratioQ,
             perfect_balance := decide (|ratioQ - 1/2| < 1/1000) }

/-! ### Concrete instances used by the witnesses -/

/-- A generator whose n-th chunk is 16 copies of `n % 256`. -/
def testGen : Nat → Option (List Nat) := fun n => some (List.replicate 16 (n % 256))

/-- A stand-in digest function with the right output shape. -/
def testSha : List Nat → List Nat := fun bs => List.replicate 32 (bs.length % 256)

/-- A stand-in for `hash_api_key` (identity, so table rows are easy to read). -/
def testHashKey : String → String := fun s => s

def testDB : DB :=
  { api_keys := [{ id := "k1", user_id := "u1", key_hash := "gs_test", active := true }],
    users := [{ id := "u1", email := "u@example.com" }],
    subscriptions := [{ user_id := "u1", tier := "free", chunks_limit := 10000,
                        rate_limit := 100, active := true }],
    connected := true, selectRaises := false, updateRaises := false }

def testEnv : Env :=
  { gen := testGen, sha := testSha, hashKey := testHashKey, db := testDB,
    rateRPC := fun _ _ => .ok (some true), usageRPC := fun _ => .ok (some 0),
    genAvail := true, dbAvail := true }

/-- The same environment in demo mode (`DATABASE_AVAILABLE = False`). -/
def demoEnv : Env := { testEnv with dbAvail := false }

/-- Unwrap a successful `Except`, with an explicit fallback. -/
def exceptGet {ε α : Type} (d : α) : Except ε α → α
  | .ok a => a
  | .error _ => d

def blankResponse : GenerateResponse :=
  { data := [], hash := "", chunks_generated := 0, seed := 0, verification_url := "" }

instance {ε α : Type} [DecidableEq ε] [DecidableEq α] : DecidableEq (Except ε α) := fun x y =>
  match x, y with
  | .error a, .error b =>
    if h : a = b then isTrue (by rw [h]) else isFalse (fun he => h (by injection he))
  | .error _, .ok _ => isFalse (fun he => by injection he)
  | .ok _, .error _ => isFalse (fun he => by injection he)
  | .ok a, .ok b =>
    if h : a = b then isTrue (by rw [h]) else isFalse (fun he => h (by injection he))

/-! ### Helper lemmas: hex encoding -/

theorem isLowerHex_hexDigitChar : ∀ n, n < 16 → isLowerHex (hexDigitChar n) = true := by
  decide

theorem hexDigitVal_hexDigitChar : ∀ n, n < 16 → hexDigitVal (hexDigitChar n) = n := by
  decide

theorem bytesToHexL_length (bs : List Nat) : (bytesToHexL bs).length = 2 * bs.length := by
  induction bs with
  | nil => rfl
  | cons b rest ih =>
    simp only [bytesToHexL, List.length_cons, ih]
    omega

theorem mem_bytesToHexL_lower (bs : List Nat) (hb : ∀ b ∈ bs, b < 256) :
    ∀ c ∈ bytesToHexL bs, isLowerHex c = true := by
  induction bs with
  | nil => intro c hc; simp [bytesToHexL] at hc
  | cons b rest ih =>
    intro c hc
    have hb0 : b < 256 := hb b (by simp)
    simp only [bytesToHexL, List.mem_cons] at hc
    rcases hc with rfl | rfl | hc
    · exact isLowerHex_hexDigitChar _ (by omega)
    · exact isLowerHex_hexDigitChar _ (by omega)
    · exact ih (fun x hx => hb x (by simp [hx])) c hc

theorem hexToBytes_bytesToHexL (bs : List Nat) (hb : ∀ b ∈ bs, b < 256) :
    hexToBytes (bytesToHexL bs) = bs := by
  induction bs with
  | nil => rfl
  | cons b rest ih =>
    have hb0 : b < 256 := hb b (by simp)
    simp only [bytesToHexL, hexToBytes]
    rw [hexDigitVal_hexDigitChar _ (by omega : b / 16 < 16),
        hexDigitVal_hexDigitChar _ (by omega : b % 16 < 16),
        ih (fun x hx => hb x (by simp [hx]))]
    congr 1
    omega

theorem stringMk_length (l : List Char) : (String.mk l).length = l.length := rfl

theorem stringMk_toList (l : List Char) : (String.mk l).toList = l := rfl

theorem bytesToHex_length (bs : List Nat) : (bytesToHex bs).length = 2 * bs.length := by
  rw [bytesToHex, stringMk_length, bytesToHexL_length]

/-! ### Helper lemmas: generator stream -/

theorem optionMapList_length (g : Nat → Option (List Nat)) :
    ∀ l cs, optionMapList g l = some cs → cs.length = l.length := by
  intro l
  induction l with
  | nil =>
    intro cs h
    simp only [optionMapList, Option.some.injEq] at h
    subst h
    rfl
  | cons n rest ih =>
    intro cs h
    cases hg : g n with
    | none => simp [optionMapList, hg] at h
    | some c =>
      cases hr : optionMapList g rest with
      | none => simp [optionMapList, hg, hr] at h
      | some cs' =>
        simp only [optionMapList, hg, hr, Option.some.injEq] at h
        subst h
        simp [ih cs' hr]

theorem optionMapList_mem (g : Nat → Option (List Nat)) :
    ∀ l cs, optionMapList g l = some cs → ∀ c ∈ cs, ∃ n ∈ l, g n = some c := by
  intro l
  induction l with
  | nil =>
    intro cs h c hc
    simp only [optionMapList, Option.some.injEq] at h
    subst h
    simp at hc
  | cons n rest ih =>
    intro cs h c hc
    cases hg : g n with
    | none => simp [optionMapList, hg] at h
    | some c0 =>
      cases hr : optionMapList g rest with
      | none => simp [optionMapList, hg, hr] at h
      | some cs' =>
        simp only [optionMapList, hg, hr, Option.some.injEq] at h
        subst h
        rcases List.mem_cons.mp hc with rfl | hc'
        · exact ⟨n, by simp, hg⟩
        · obtain ⟨m, hm, hgm⟩ := ih cs' hr c hc'
          exact ⟨m, by simp [hm], hgm⟩

theorem runGenerator_some (g : Nat → Option (List Nat)) (skip seed chunks : Nat)
    (cbs : List (List Nat)) (h : runGenerator g skip seed chunks = some cbs) :
    cbs.length = chunks ∧ ∀ c ∈ cbs, ∃ n, g n = some c := by
  rw [runGenerator, Option.map_eq_some'] at h
  obtain ⟨full, hfull, hdrop⟩ := h
  subst hdrop
  refine ⟨?_, ?_⟩
  · rw [List.length_drop, optionMapList_length g _ _ hfull, List.length_range]
    omega
  · intro c hc
    obtain ⟨n, _, hn⟩ := optionMapList_mem g _ _ hfull c (List.mem_of_mem_drop hc)
    exact ⟨n, hn⟩

/-- The chunk stream depends only on `skip + seed`: skipping `k` then seeking
`s` draws exactly the chunks that seeking `s + k` draws. -/
theorem runGenerator_shift (g : Nat → Option (List Nat)) (s k c : Nat) :
    runGenerator g k s c = runGenerator g 0 (s + k) c := by
  unfold runGenerator
  have h1 : k + s + c = 0 + (s + k) + c := by omega
  have h2 : k + s = 0 + (s + k) := by omega
  rw [h1, h2]

/-! ### Helper lemmas: `str.replace("Bearer ", "")` -/

theorem removeBearerGo_fuel : ∀ f1 : Nat, ∀ l : List Char, ∀ f2 : Nat,
    l.length ≤ f1 → l.length ≤ f2 → removeBearerGo f1 l = removeBearerGo f2 l := by
  intro f1
  induction f1 with
  | zero =>
    intro l f2 h1 _
    have hl : l = [] := List.eq_nil_of_length_eq_zero (Nat.le_zero.mp h1)
    subst hl
    cases f2 <;> rfl
  | succ f ih =>
    intro l f2 h1 h2
    cases l with
    | nil => cases f2 <;> rfl
    | cons c rest =>
      cases f2 with
      | zero => simp at h2
      | succ f2' =>
        simp only [List.length_cons] at h1 h2
        simp only [removeBearerGo]
        by_cases hp : bearerPat.isPrefixOf (c :: rest) = true
        · rw [if_pos hp, if_pos hp]
          exact ih _ _ (by simp [List.length_drop]; omega)
            (by simp [List.length_drop]; omega)
        · rw [if_neg hp, if_neg hp, ih rest f2' (by omega) (by omega)]

theorem isPrefixOf_eq_append : ∀ (p l : List Char), p.isPrefixOf l = true →
    l = p ++ l.drop p.length := by
  intro p
  induction p with
  | nil => intro l _; simp
  | cons c cs ih =>
    intro l h
    cases l with
    | nil => simp [List.isPrefixOf] at h
    | cons d ds =>
      simp only [List.isPrefixOf, Bool.and_eq_true, beq_iff_eq] at h
      obtain ⟨rfl, h2⟩ := h
      simp only [List.length_cons, List.drop_succ_cons, List.cons_append,
        List.cons.injEq, true_and]
      exact ih ds h2

theorem bearerPat_isPrefixOf_append (l : List Char) :
    bearerPat.isPrefixOf (bearerPat ++ l) = true := by
  simp [bearerPat, List.isPrefixOf]

theorem removeBearerL_leading_pat (l : List Char) :
    removeBearerL (bearerPat ++ l) = removeBearerL l := by
  show removeBearerGo (bearerPat ++ l).length (bearerPat ++ l) = removeBearerGo l.length l
  have hlen : (bearerPat ++ l).length = (l.length + 6) + 1 := by simp [bearerPat]
  have hcons : bearerPat ++ l = 'B' :: (['e', 'a', 'r', 'e', 'r', ' '] ++ l) := rfl
  rw [hlen, hcons, removeBearerGo, if_pos (by rw [← hcons]; exact bearerPat_isPrefixOf_append l)]
  have hdrop : (['e', 'a', 'r', 'e', 'r', ' '] ++ l).drop 6 = l := by
    have h6 : (['e', 'a', 'r', 'e', 'r', ' '] : List Char).length = 6 := rfl
    rw [← h6, List.drop_left]
  rw [hdrop]
  exact removeBearerGo_fuel _ l _ (by omega) le_rfl

theorem removeBearerGo_no_occurrence : ∀ fuel : Nat, ∀ l : List Char, l.length ≤ fuel →
    containsBearerL l = false → removeBearerGo fuel l = l := by
  intro fuel
  induction fuel with
  | zero =>
    intro l h _
    have hl : l = [] := List.eq_nil_of_length_eq_zero (Nat.le_zero.mp h)
    subst hl
    rfl
  | succ f ih =>
    intro l hlen hocc
    cases l with
    | nil => rfl
    | cons c rest =>
      simp only [containsBearerL, Bool.or_eq_false_iff] at hocc
      simp only [removeBearerGo]
      rw [if_neg (by simp [hocc.1]), ih rest (by simp at hlen; omega) hocc.2]

theorem removeBearerL_no_occurrence (l : List Char) (h : containsBearerL l = false) :
    removeBearerL l = l :=
  removeBearerGo_no_occurrence _ l le_rfl h

/-! ### Helper lemmas: the `generate` handler body -/

/-- Exhaustive case analysis of `generate`: the early failures emit no
events; once the chunks are drawn, the usage row is logged exactly when the
database is available and a resolved principal was supplied, and the
request then succeeds or fails with 500 according to whether the response
model accepts the encoded data. -/
theorem generate_cases (env : Env) (auth : AuthArg) (r : GenerateRequest) :
    (∃ e, generate env auth r = (.error e, [])) ∨
    (∃ p cbs, auth = .principal p ∧ env.dbAvail = true ∧
      runGenerator env.gen r.skip r.seed r.chunks = some cbs ∧
      ((∃ data, respModel (encodeData r.format cbs) = some data ∧
        generate env auth r =
          (.ok (makeResponse env r cbs data), [.logWrite (usageEntry p r)])) ∨
       (respModel (encodeData r.format cbs) = none ∧
        generate env auth r = (.error .genFailed, [.logWrite (usageEntry p r)])))) ∨
    (∃ cbs, env.dbAvail = false ∧
      runGenerator env.gen r.skip r.seed r.chunks = some cbs ∧
      ((∃ data, respModel (encodeData r.format cbs) = some data ∧
        generate env auth r = (.ok (makeResponse env r cbs data), [])) ∨
       (respModel (encodeData r.format cbs) = none ∧
        generate env auth r = (.error .genFailed, [])))) := by
  cases hga : env.genAvail with
  | false => exact Or.inl ⟨.genUnavailable, by simp [generate, hga]⟩
  | true =>
    cases hrun : runGenerator env.gen r.skip r.seed r.chunks with
    | none => exact Or.inl ⟨.genFailed, by simp [generate, hga, hrun]⟩
    | some cbs =>
      cases hdb : env.dbAvail with
      | false =>
        cases hrm : respModel (encodeData r.format cbs) with
        | none =>
          exact Or.inr (Or.inr ⟨cbs, rfl, rfl,
            Or.inr ⟨hrm, by simp [generate, hga, hrun, hdb, hrm]⟩⟩)
        | some data =>
          exact Or.inr (Or.inr ⟨cbs, rfl, rfl,
            Or.inl ⟨data, hrm, by simp [generate, hga, hrun, hdb, hrm]⟩⟩)
      | true =>
        cases auth with
        | principal p =>
          cases hrm : respModel (encodeData r.format cbs) with
          | none =>
            exact Or.inr (Or.inl ⟨p, cbs, rfl, rfl, rfl,
              Or.inr ⟨hrm, by simp [generate, hga, hrun, hdb, hrm]⟩⟩)
          | some data =>
            exact Or.inr (Or.inl ⟨p, cbs, rfl, rfl, rfl,
              Or.inl ⟨data, hrm, by simp [generate, hga, hrun, hdb, hrm]⟩⟩)
        | dependsDefault =>
          exact Or.inl ⟨.genFailed, by simp [generate, hga, hrun, hdb]⟩

theorem generate_ok (env : Env) (auth : AuthArg) (r : GenerateRequest)
    (resp : GenerateResponse) (h : (generate env auth r).1 = .ok resp) :
    ∃ cbs data, runGenerator env.gen r.skip r.seed r.chunks = some cbs ∧
      respModel (encodeData r.format cbs) = some data ∧
      resp = makeResponse env r cbs data := by
  rcases generate_cases env auth r with ⟨e, he⟩ |
    ⟨p, cbs, _, _, hrun, ⟨data, hrm, heq⟩ | ⟨hrm, heq⟩⟩ |
    ⟨cbs, _, hrun, ⟨data, hrm, heq⟩ | ⟨hrm, heq⟩⟩
  · rw [he] at h; exact absurd h (by simp)
  · rw [heq] at h; exact ⟨cbs, data, hrun, hrm, by injection h with h; rw [h]⟩
  · rw [heq] at h; exact absurd h (by simp)
  · rw [heq] at h; exact ⟨cbs, data, hrun, hrm, by injection h with h; rw [h]⟩
  · rw [heq] at h; exact absurd h (by simp)

/-- Every event `generate` emits is a `logWrite`. -/
theorem generate_events_logWrite (env : Env) (auth : AuthArg) (r : GenerateRequest) :
    ∀ ev ∈ (generate env auth r).2, ∃ entry, ev = .logWrite entry := by
  rcases generate_cases env auth r with ⟨e, he⟩ |
    ⟨p, cbs, _, _, _, ⟨data, _, heq⟩ | ⟨_, heq⟩⟩ |
    ⟨cbs, _, _, ⟨data, _, heq⟩ | ⟨_, heq⟩⟩ <;>
    [rw [he]; rw [heq]; rw [heq]; rw [heq]; rw [heq]] <;>
    intro ev hev <;> simp at hev
  · exact ⟨usageEntry p r, hev⟩
  · exact ⟨usageEntry p r, hev⟩

/-- A usage row is emitted only on the fully-admitted branch — after the
chunks were drawn with the database available and a resolved principal —
and it is always the 200-status row for the requested chunk count.  It does
not imply the request succeeded: response validation happens afterwards. -/
theorem generate_log_spec (env : Env) (auth : AuthArg) (r : GenerateRequest)
    (entry : LogEntry) (h : Event.logWrite entry ∈ (generate env auth r).2) :
    (∃ p, auth = .principal p) ∧ env.dbAvail = true ∧
      (∃ cbs, runGenerator env.gen r.skip r.seed r.chunks = some cbs) ∧
      entry.status_code = 200 ∧ entry.chunks_generated = r.chunks ∧
      entry.endpoint = "/api/v1/generate" := by
  rcases generate_cases env auth r with ⟨e, he⟩ |
    ⟨p, cbs, hauth, hdb, hrun, ⟨data, _, heq⟩ | ⟨_, heq⟩⟩ |
    ⟨cbs, _, hrun, ⟨data, _, heq⟩ | ⟨_, heq⟩⟩
  · rw [he] at h; simp at h
  · rw [heq] at h
    simp at h
    subst h
    exact ⟨⟨p, hauth⟩, hdb, ⟨cbs, hrun⟩, rfl, rfl, rfl⟩
  · rw [heq] at h
    simp at h
    subst h
    exact ⟨⟨p, hauth⟩, hdb, ⟨cbs, hrun⟩, rfl, rfl, rfl⟩
  · rw [heq] at h; simp at h
  · rw [heq] at h; simp at h

/-- The response model accepts the encoded data of every non-json format
(hex and binary both produce lists of strings). -/
theorem respModel_encodeData_ne_json (fmt : Format) (cbs : List (List Nat))
    (h : fmt ≠ .json) : respModel (encodeData fmt cbs) ≠ none := by
  cases fmt
  · simp [encodeData, respModel]
  · exact absurd rfl h
  · simp [encodeData, respModel]

/-- With a non-json format, a logged usage row does imply the request
succeeded (validation cannot fail on a list of strings). -/
theorem generate_log_ok_of_ne_json (env : Env) (auth : AuthArg)
    (r : GenerateRequest) (hfmt : r.format ≠ .json) (entry : LogEntry)
    (h : Event.logWrite entry ∈ (generate env auth r).2) :
    ∃ resp, (generate env auth r).1 = .ok resp := by
  rcases generate_cases env auth r with ⟨e, he⟩ |
    ⟨p, cbs, _, _, _, ⟨data, hrm, heq⟩ | ⟨hrm, heq⟩⟩ |
    ⟨cbs, _, _, ⟨data, hrm, heq⟩ | ⟨hrm, heq⟩⟩
  · rw [he] at h; simp at h
  · exact ⟨makeResponse env r cbs data, by rw [heq]⟩
  · exact absurd hrm (respModel_encodeData_ne_json _ _ hfmt)
  · exact ⟨makeResponse env r cbs data, by rw [heq]⟩
  · exact absurd hrm (respModel_encodeData_ne_json _ _ hfmt)

/-! ### Helper lemmas: the verify middleware trace -/

/-- The trace of one execution of the dependency: one `.authCheck`, followed
by `.rateCheck` and then `.quotaCheck` exactly as far as the chain got. -/
theorem verify_trace_shape (env : Env) (a : Option String) :
    (verify_api_key env a).2 = [.authCheck] ∨
    (verify_api_key env a).2 = [.authCheck, .rateCheck] ∨
    (verify_api_key env a).2 = [.authCheck, .rateCheck, .quotaCheck] := by
  rcases a with _ | auth
  · left; rfl
  · by_cases h1 : auth = ""
    · left; simp [verify_api_key, h1]
    · by_cases h2 : pyStartsWith auth "Bearer " = true
      · cases hdb : env.dbAvail with
        | false =>
          by_cases h3 : removeBearer auth = "gs_demo_key_12345" <;>
            left <;> simp [verify_api_key, h1, h2, hdb, h3]
        | true =>
          cases hk : db_verify_api_key env (removeBearer auth) with
          | none => left; simp [verify_api_key, h1, h2, hdb, hk]
          | some u =>
            by_cases h4 : check_rate_limit env.db.connected env.rateRPC u.user_id
                u.rate_limit = true
            · by_cases h5 : u.chunks_limit ≤
                  get_monthly_usage env.db.connected env.usageRPC u.user_id <;>
                right <;> right <;> simp [verify_api_key, h1, h2, hdb, hk, h4, h5]
            · right; left; simp [verify_api_key, h1, h2, hdb, hk, h4]
      · left; simp [verify_api_key, h1, h2]

/-! ### Claim C5: failure of the last_used_at update -/

def updFailDB : DB := { testDB with updateRaises := true }

def updFailEnv : Env := { testEnv with db := updFailDB }

/-- C5 counterexample: a key whose digest matches an active API-key row, with
an existing user and an active subscription, but whose `last_used_at` update
raises.  The claim says resolution must still return the Principal; the code
returns `None`, because the update sits inside the same try/except as the
lookups (database.py lines 72-88). -/
theorem C5_counterexample :
    updFailEnv.db.connected = true ∧
    updFailEnv.db.selectRaises = false ∧
    updFailEnv.db.api_keys.find?
      (fun r => r.key_hash == updFailEnv.hashKey "gs_test" && r.active) =
      some { id := "k1", user_id := "u1", key_hash := "gs_test", active := true } ∧
    updFailEnv.db.users.find? (fun u => u.id == "u1") =
      some { id := "u1", email := "u@example.com" } ∧
    updFailEnv.db.subscriptions.find? (fun s => s.user_id == "u1" && s.active) =
      some { user_id := "u1", tier := "free", chunks_limit := 10000,
             rate_limit := 100, active := true } ∧
    updFailEnv.db.updateRaises = true ∧
    db_verify_api_key updFailEnv "gs_test" = none := by
  decide

/-- C5 amended: when the digest matches an active API-key row with an
existing user and an active subscription, key resolution returns the
Principal if the last-used update succeeds, and fails (returns none, hence a
403 upstream) if that update raises — the update is not best-effort. -/
theorem C5_update_failure_fails_resolution (env : Env) (key : String)
    (kr : ApiKeyRow) (u : UserRow) (sb : SubRow)
    (hconn : env.db.connected = true) (hsel : env.db.selectRaises = false)
    (hk : env.db.api_keys.find?
      (fun r => r.key_hash == env.hashKey key && r.active) = some kr)
    (hu : env.db.users.find? (fun x => x.id == kr.user_id) = some u)
    (hs : env.db.subscriptions.find?
      (fun s => s.user_id == kr.user_id && s.active) = some sb) :
    db_verify_api_key env key =
      if env.db.updateRaises then none
      else some { user_id := kr.user_id, api_key_id := kr.id, email := u.email,
                  tier := sb.tier, chunks_limit := sb.chunks_limit,
                  rate_limit := sb.rate_limit } := by
  simp [db_verify_api_key, hconn, hsel, hk, hu, hs]

/-- C5 witness: the amended resolution equation evaluated on the concrete
store whose update succeeds. -/
theorem C5_witness :
    db_verify_api_key testEnv "gs_test" =
      if testEnv.db.updateRaises then none
      else some { user_id := "u1", api_key_id := "k1", email := "u@example.com",
                  tier := "free", chunks_limit := 10000, rate_limit := 100 } :=
  C5_update_failure_fails_resolution testEnv "gs_test"
    { id := "k1", user_id := "u1", key_hash := "gs_test", active := true }
    { id := "u1", email := "u@example.com" }
    { user_id := "u1", tier := "free", chunks_limit := 10000,
      rate_limit := 100, active := true }
    (by decide) (by decide) (by decide) (by decide) (by decide)

/-! ### Claim C6: fail-open admission checks -/

/-- C6: for every user id and limit, an unreachable backing store
(`supabase` is None) or a raising RPC makes `check_rate_limit` return `true`
and `get_monthly_usage` return `0` — the failure is never surfaced. -/
theorem C6_fail_open (rpcR : String → Nat → RPCResult Bool)
    (rpcU : String → RPCResult Nat) (uid : String) (lim : Nat) :
    (check_rate_limit false rpcR uid lim = true) ∧
    (get_monthly_usage false rpcU uid = 0) ∧
    (rpcR uid lim = .raised → check_rate_limit true rpcR uid lim = true) ∧
    (rpcU uid = .raised → get_monthly_usage true rpcU uid = 0) := by
  refine ⟨rfl, rfl, fun h => ?_, fun h => ?_⟩
  · simp [check_rate_limit, h]
  · simp [get_monthly_usage, h]

/-- C6 witness: the fail-open results on concrete always-raising RPCs. -/
theorem C6_witness :
    (check_rate_limit false (fun _ _ => .raised) "u1" 100 = true) ∧
    (get_monthly_usage false (fun _ => .raised) "u1" = 0) ∧
    (check_rate_limit true (fun _ _ => .raised) "u1" 100 = true) ∧
    (get_monthly_usage true (fun _ => .raised) "u1" = 0) := by
  obtain ⟨h1, h2, h3, h4⟩ := C6_fail_open (fun _ _ => .raised) (fun _ => .raised) "u1" 100
  exact ⟨h1, h2, h3 rfl, h4 rfl⟩

/-! ### Claim C7: what key reaches resolution -/

def bearerTwiceDB : DB :=
  { testDB with
    api_keys := [{ id := "k2", user_id := "u1", key_hash := "gs_x", active := true }] }

def bearerTwiceEnv : Env := { testEnv with db := bearerTwiceDB }

/-- C7 counterexample: for the header "Bearer Bearer gs_x",
`replace("Bearer ", "")` removes both occurrences and yields "gs_x", not the
remainder after the first 7 characters ("Bearer gs_x"); the middleware then
resolves the key "gs_x" (shown by a store that only knows "gs_x"). -/
theorem C7_counterexample :
    pyStartsWith "Bearer Bearer gs_x" "Bearer " = true ∧
    removeBearer "Bearer Bearer gs_x" = "gs_x" ∧
    String.mk (("Bearer Bearer gs_x").toList.drop 7) = "Bearer gs_x" ∧
    removeBearer "Bearer Bearer gs_x" ≠
      String.mk (("Bearer Bearer gs_x").toList.drop 7) ∧
    (verify_api_key bearerTwiceEnv (some "Bearer Bearer gs_x")).1 =
      .ok { user_id := "u1", api_key_id := "k2", email := "u@example.com",
            tier := "free", chunks_limit := 10000, rate_limit := 100 } := by
  decide

/-- C7 amended: the key passed on is the header with every occurrence of
"Bearer " removed; when "Bearer " occurs only as the leading prefix (no
further occurrence in the remainder), that equals the remainder of the
header after its first 7 characters. -/
theorem C7_strip_eq_drop7 (a : String) (h : pyStartsWith a "Bearer " = true)
    (hno : containsBearerL (a.toList.drop 7) = false) :
    removeBearer a = String.mk (a.toList.drop 7) := by
  rw [pyStartsWith] at h
  have ht : a.toList = bearerPat ++ a.toList.drop 7 :=
    isPrefixOf_eq_append _ a.toList h
  rw [removeBearer]
  conv_lhs => rw [ht]
  rw [removeBearerL_leading_pat, removeBearerL_no_occurrence _ hno]

/-- C7 witness: the amended stripping equation on a well-formed header. -/
theorem C7_witness :
    removeBearer "Bearer gs_test" = String.mk (("Bearer gs_test").toList.drop 7) :=
  C7_strip_eq_drop7 "Bearer gs_test" (by decide) (by decide)

/-! ### Claim C2: authentication failure statuses -/

/-- C2: a missing Authorization header fails with 401; a header that does not
start with "Bearer " fails with 401; a key that does not resolve to an active
record (database mode) — or is not the demo sentinel (demo mode) — fails
with 403. -/
theorem C2_auth_failures (env : Env) (a : String) :
    ((verify_api_key env none).1 = .error .missingKey ∧
      HErr.status .missingKey = 401) ∧
    (pyStartsWith a "Bearer " = false →
      ∃ e, (verify_api_key env (some a)).1 = .error e ∧ e.status = 401) ∧
    (env.dbAvail = true → pyStartsWith a "Bearer " = true →
      db_verify_api_key env (removeBearer a) = none →
      (verify_api_key env (some a)).1 = .error .invalidKey ∧
      HErr.status .invalidKey = 403) ∧
    (env.dbAvail = false → pyStartsWith a "Bearer " = true →
      removeBearer a ≠ "gs_demo_key_12345" →
      (verify_api_key env (some a)).1 = .error .invalidKey ∧
      HErr.status .invalidKey = 403) := by
  refine ⟨⟨rfl, rfl⟩, ?_, ?_, ?_⟩
  · intro h
    by_cases h1 : a = ""
    · exact ⟨.missingKey, by simp [verify_api_key, h1], rfl⟩
    · exact ⟨.badScheme, by simp [verify_api_key, h1, h], rfl⟩
  · intro hdb h2 hk
    have h1 : a ≠ "" := fun he => by subst he; exact absurd h2 (by decide)
    exact ⟨by simp [verify_api_key, h1, h2, hdb, hk], rfl⟩
  · intro hdb h2 h3
    have h1 : a ≠ "" := fun he => by subst he; exact absurd h2 (by decide)
    exact ⟨by simp [verify_api_key, h1, h2, hdb, h3], rfl⟩

/-- C2 witness: the three failure shapes on concrete headers against the
concrete store. -/
theorem C2_witness :
    ((verify_api_key testEnv none).1 = .error .missingKey ∧
      HErr.status .missingKey = 401) ∧
    (∃ e, (verify_api_key testEnv (some "Token abc")).1 = .error e ∧
      e.status = 401) ∧
    ((verify_api_key testEnv (some "Bearer nope")).1 = .error .invalidKey ∧
      HErr.status .invalidKey = 403) :=
  ⟨(C2_auth_failures testEnv "x").1,
   (C2_auth_failures testEnv "Token abc").2.1 (by decide),
   (C2_auth_failures testEnv "Bearer nope").2.2.1 rfl (by decide) (by decide)⟩

/-! ### Claim C3: quota check after rate-limit check -/

/-- C3: once the key resolves, a passed rate-limit check followed by monthly
usage at or above `chunks_limit` yields the 429 quota error carrying the
configured monthly limit (with the quota check visible after the rate check
in the trace); a failed rate-limit check instead terminates the chain before
any quota check. -/
theorem C3_quota_after_rate (env : Env) (a : String) (p : Principal)
    (hdb : env.dbAvail = true)
    (hstart : pyStartsWith a "Bearer " = true)
    (hkey : db_verify_api_key env (removeBearer a) = some p) :
    (check_rate_limit env.db.connected env.rateRPC p.user_id p.rate_limit = true →
      p.chunks_limit ≤ get_monthly_usage env.db.connected env.usageRPC p.user_id →
      verify_api_key env (some a) =
        (.error (.quotaExceeded p.chunks_limit),
         [.authCheck, .rateCheck, .quotaCheck]) ∧
      HErr.status (.quotaExceeded p.chunks_limit) = 429) ∧
    (check_rate_limit env.db.connected env.rateRPC p.user_id p.rate_limit = false →
      verify_api_key env (some a) =
        (.error (.rateLimited p.rate_limit), [.authCheck, .rateCheck])) := by
  have h1 : a ≠ "" := fun he => by subst he; exact absurd hstart (by decide)
  constructor
  · intro hrate hq
    exact ⟨by simp [verify_api_key, h1, hstart, hdb, hkey, hrate, hq], rfl⟩
  · intro hrate
    simp [verify_api_key, h1, hstart, hdb, hkey, hrate]

/-- An environment whose monthly-usage RPC reports usage equal to the free
tier's limit. -/
def overQuotaEnv : Env := { testEnv with usageRPC := fun _ => .ok (some 10000) }

/-- C3 witness: the quota rejection evaluated on the concrete over-quota
store (rate check passes, usage 10000 ≥ limit 10000 ⇒ 429 with limit). -/
theorem C3_witness :
    verify_api_key overQuotaEnv (some "Bearer gs_test") =
      (.error (.quotaExceeded 10000), [.authCheck, .rateCheck, .quotaCheck]) ∧
    HErr.status (.quotaExceeded 10000) = 429 :=
  (C3_quota_after_rate overQuotaEnv "Bearer gs_test"
    { user_id := "u1", api_key_id := "k1", email := "u@example.com",
      tier := "free", chunks_limit := 10000, rate_limit := 100 }
    rfl (by decide) (by decide)).1 (by decide) (by decide)

/-! ### Claim C9: skip and seed are interchangeable advances -/

/-- C9: for any generator, auth argument, chunk count and format, the
request (seed = s, skip = k) produces exactly the same `data` and `hash`
outcome as (seed = s + k, skip = 0) — both advance the fresh stream by
s + k positions before drawing. -/
theorem C9_skip_seed_interchangeable (env : Env) (auth : AuthArg)
    (s k c : Nat) (f : Format) :
    (generate env auth { seed := s, chunks := c, format := f, skip := k }).1.map
      (fun resp => (resp.data, resp.hash)) =
    (generate env auth { seed := s + k, chunks := c, format := f, skip := 0 }).1.map
      (fun resp => (resp.data, resp.hash)) := by
  unfold generate
  dsimp only
  rw [runGenerator_shift env.gen s k c]
  cases env.genAvail
  · rfl
  · cases runGenerator env.gen 0 (s + k) c with
    | none => rfl
    | some cbs =>
      cases env.dbAvail
      · rcases hrm : respModel (encodeData f cbs) with _ | data <;>
          simp [hrm, makeResponse, Except.map]
      · cases auth with
        | principal p =>
          rcases hrm : respModel (encodeData f cbs) with _ | data <;>
            simp [hrm, makeResponse, Except.map]
        | dependsDefault => rfl

/-! ### Claim C10: usage rows versus the successful path -/

theorem generate_route_ok (env : Env) (a : Option String) (r : GenerateRequest)
    (resp : GenerateResponse) (hok : (generate_route env a r).1 = .ok resp) :
    ∃ p, (generate env (.principal p) r).1 = .ok resp := by
  rcases hv : verify_api_key env a with ⟨res, evs⟩
  cases res with
  | error e => simp [generate_route, hv] at hok
  | ok p =>
    simp only [generate_route, hv] at hok
    exact ⟨p, hok⟩

/-- The usage row the concrete admitted one-chunk requests emit. -/
def c10Entry : LogEntry :=
  { user_id := "u1", api_key_id := "k1", endpoint := "/api/v1/generate",
    chunks_generated := 1, status_code := 200 }

/-- C10 counterexample: a valid-key format="json" request in database mode
writes the 200-status usage row (`log_usage` runs at main.py 200-209), and
the request then fails with 500 when the declared response model
`data: List[str]` rejects the list-of-ints data (main.py 211 and 112) — a
usage row is appended for a request that fails, against the claim that rows
appear only on the successful path. -/
theorem C10_counterexample :
    (generate_route testEnv (some "Bearer gs_test")
      { seed := 0, chunks := 1, format := .json, skip := 0 }).1 =
      .error .genFailed ∧
    HErr.status .genFailed = 500 ∧
    Event.logWrite c10Entry ∈ (generate_route testEnv (some "Bearer gs_test")
      { seed := 0, chunks := 1, format := .json, skip := 0 }).2 ∧
    c10Entry.status_code = 200 ∧ c10Entry.chunks_generated = 1 := by
  decide

/-- C10 amended: every usage row records status_code 200, chunks_generated
equal to the requested count and the generate endpoint, and is written only
once authentication succeeded, the database is available and chunk
generation succeeded; a request that fails authentication, rate-limit or
quota checks, or raises during generation, writes no row.  A row does not
imply a successful response — for format="json" the row is written and the
request then fails with 500 at response-model validation — but for the
non-json formats a failed request writes no row. -/
theorem C10_usage_rows (env : Env) (a : Option String) (r : GenerateRequest) :
    (∀ entry, Event.logWrite entry ∈ (generate_route env a r).2 →
      entry.status_code = 200 ∧ entry.chunks_generated = r.chunks ∧
      entry.endpoint = "/api/v1/generate" ∧
      (∃ p, (verify_api_key env a).1 = .ok p) ∧ env.dbAvail = true ∧
      (∃ cbs, runGenerator env.gen r.skip r.seed r.chunks = some cbs)) ∧
    (∀ e, (verify_api_key env a).1 = .error e →
      ∀ entry, Event.logWrite entry ∉ (generate_route env a r).2) ∧
    (runGenerator env.gen r.skip r.seed r.chunks = none →
      ∀ entry, Event.logWrite entry ∉ (generate_route env a r).2) ∧
    (r.format ≠ .json → ∀ e, (generate_route env a r).1 = .error e →
      ∀ entry, Event.logWrite entry ∉ (generate_route env a r).2) := by
  rcases hv : verify_api_key env a with ⟨res, evs⟩
  have hnolog : ∀ entry, Event.logWrite entry ∉ evs := by
    intro entry hmem
    have hshape := verify_trace_shape env a
    rw [hv] at hshape
    rcases hshape with h | h | h <;> simp only [] at h <;> rw [h] at hmem <;>
      simp at hmem
  cases res with
  | error e =>
    simp only [generate_route, hv]
    refine ⟨fun entry hmem => absurd hmem (hnolog entry),
      fun e' _ entry => hnolog entry,
      fun _ entry => hnolog entry,
      fun _ e' _ entry => hnolog entry⟩
  | ok p =>
    simp only [generate_route, hv]
    refine ⟨?_, ?_, ?_, ?_⟩
    · intro entry hmem
      rcases List.mem_append.mp hmem with h | h
      · exact absurd h (hnolog entry)
      · obtain ⟨_, hdb, hcbs, h200, hch, hep⟩ :=
          generate_log_spec env (.principal p) r entry h
        exact ⟨h200, hch, hep, ⟨p, rfl⟩, hdb, hcbs⟩
    · intro e' he'
      exact absurd he' (by simp)
    · intro hnone entry hmem
      rcases List.mem_append.mp hmem with h | h
      · exact hnolog entry h
      · obtain ⟨_, _, ⟨cbs, hrun⟩, _⟩ := generate_log_spec env (.principal p) r entry h
        rw [hnone] at hrun
        exact Option.noConfusion hrun
    · intro hfmt e' herr entry hmem
      rcases List.mem_append.mp hmem with h | h
      · exact hnolog entry h
      · obtain ⟨resp', hok⟩ := generate_log_ok_of_ne_json env (.principal p) r hfmt entry h
        rw [hok] at herr
        exact Except.noConfusion herr

/-- C10 witness: the row content and preconditions on the concrete admitted
hex request, and the no-row guarantee on a concrete rejected request. -/
theorem C10_witness :
    (c10Entry.status_code = 200 ∧ c10Entry.chunks_generated = 1 ∧
      c10Entry.endpoint = "/api/v1/generate" ∧
      (∃ p, (verify_api_key testEnv (some "Bearer gs_test")).1 = .ok p) ∧
      testEnv.dbAvail = true ∧
      (∃ cbs, runGenerator testEnv.gen 0 0 1 = some cbs)) ∧
    Event.logWrite c10Entry ∉ (generate_route testEnv (some "Bearer nope")
      { seed := 0, chunks := 1, format := .hex, skip := 0 }).2 :=
  ⟨(C10_usage_rows testEnv (some "Bearer gs_test")
      { seed := 0, chunks := 1, format := .hex, skip := 0 }).1 c10Entry (by decide),
   (C10_usage_rows testEnv (some "Bearer nope")
      { seed := 0, chunks := 1, format := .hex, skip := 0 }).2.1 .invalidKey
      (by decide) c10Entry⟩

/-! ### Claim C1: hex data elements and the verification hash -/

/-- C1: on every successful hex-format generate request, each `data` element
is the 32-character lowercase hex encoding of one 16-byte generator chunk
(in stream order), and `hash` is the 64-character lowercase hex digest of
the concatenation of all produced raw chunks; with chunks = 1 the hash is
the digest of the 16 bytes decoded back from the single data element. -/
theorem C1_hex_generate (env : Env) (a : Option String) (r : GenerateRequest)
    (resp : GenerateResponse)
    (hfmt : r.format = .hex)
    (hgen : ∀ n c, env.gen n = some c → c.length = 16 ∧ ∀ b ∈ c, b < 256)
    (hsha : ∀ bs, (env.sha bs).length = 32 ∧ ∀ b ∈ env.sha bs, b < 256)
    (hok : (generate_route env a r).1 = .ok resp) :
    (∃ cbs, runGenerator env.gen r.skip r.seed r.chunks = some cbs ∧
      cbs.length = r.chunks ∧ (∀ c ∈ cbs, c.length = 16) ∧
      resp.data = cbs.map bytesToHex ∧
      resp.hash = bytesToHex (env.sha cbs.flatten)) ∧
    (∀ s ∈ resp.data, s.length = 32 ∧
      ∀ ch ∈ s.toList, isLowerHex ch = true) ∧
    resp.hash.length = 64 ∧
    (∀ ch ∈ resp.hash.toList, isLowerHex ch = true) ∧
    (r.chunks = 1 → ∃ s1, resp.data = [s1] ∧
      resp.hash = bytesToHex (env.sha (hexToBytes s1.toList))) := by
  obtain ⟨p, hgok⟩ := generate_route_ok env a r resp hok
  obtain ⟨cbs, data, hrun, hrm, hresp⟩ := generate_ok env (.principal p) r resp hgok
  obtain ⟨hlen, hmem⟩ := runGenerator_some env.gen r.skip r.seed r.chunks cbs hrun
  have hchunks : ∀ c ∈ cbs, c.length = 16 ∧ ∀ b ∈ c, b < 256 := by
    intro c hc
    obtain ⟨n, hn⟩ := hmem c hc
    exact hgen n c hn
  have hdata_eq : data = cbs.map bytesToHex := by
    rw [hfmt] at hrm
    simp only [encodeData, respModel, Option.some.injEq] at hrm
    exact hrm.symm
  have hdata : resp.data = cbs.map bytesToHex := by
    rw [hresp, ← hdata_eq]
    rfl
  have hhash : resp.hash = bytesToHex (env.sha cbs.flatten) := by
    rw [hresp]
    rfl
  refine ⟨⟨cbs, hrun, hlen, fun c hc => (hchunks c hc).1, hdata, hhash⟩, ?_, ?_, ?_, ?_⟩
  · intro s hs
    rw [hdata] at hs
    simp only [List.mem_map] at hs
    obtain ⟨c, hc, rfl⟩ := hs
    constructor
    · rw [bytesToHex_length, (hchunks c hc).1]
    · intro ch hch
      rw [bytesToHex, stringMk_toList] at hch
      exact mem_bytesToHexL_lower c (hchunks c hc).2 ch hch
  · rw [hhash, bytesToHex_length, (hsha cbs.flatten).1]
  · intro ch hch
    rw [hhash, bytesToHex, stringMk_toList] at hch
    exact mem_bytesToHexL_lower _ (hsha cbs.flatten).2 ch hch
  · intro h1
    rw [h1] at hlen
    obtain ⟨c, rfl⟩ := List.length_eq_one.mp hlen
    have hrt : hexToBytes (bytesToHex c).toList = c := by
      rw [bytesToHex, stringMk_toList]
      exact hexToBytes_bytesToHexL c (hchunks c (by simp)).2
    refine ⟨bytesToHex c, by rw [hdata]; rfl, ?_⟩
    have hflat : ([c] : List (List Nat)).flatten = c := by simp
    rw [hhash, hflat, hrt]

/-- The generator parameter of the concrete environment produces 16-byte
chunks of bytes below 256. -/
theorem testGen_spec : ∀ n c, testEnv.gen n = some c →
    c.length = 16 ∧ ∀ b ∈ c, b < 256 := by
  intro n c h
  injection h with h
  subst h
  refine ⟨by simp, fun b hb => ?_⟩
  rw [List.eq_of_mem_replicate hb]
  exact Nat.mod_lt n (by norm_num)

/-- The digest parameter of the concrete environment produces 32-byte
digests of bytes below 256. -/
theorem testSha_spec : ∀ bs, (testEnv.sha bs).length = 32 ∧
    ∀ b ∈ testEnv.sha bs, b < 256 := by
  intro bs
  refine ⟨by simp [testEnv, testSha], fun b hb => ?_⟩
  simp only [testEnv, testSha] at hb
  rw [List.eq_of_mem_replicate hb]
  exact Nat.mod_lt _ (by norm_num)

/-- The response of the concrete successful hex request. -/
def c1Resp : GenerateResponse :=
  exceptGet blankResponse (generate_route testEnv (some "Bearer gs_test")
    { seed := 0, chunks := 1, format := .hex, skip := 0 }).1

/-- C1 witness: the hex/hash properties evaluated on the concrete request
(seed 0, one chunk). -/
theorem C1_witness :
    (∃ cbs, runGenerator testEnv.gen 0 0 1 = some cbs ∧
      cbs.length = 1 ∧ (∀ c ∈ cbs, c.length = 16) ∧
      c1Resp.data = cbs.map bytesToHex ∧
      c1Resp.hash = bytesToHex (testEnv.sha cbs.flatten)) ∧
    (∀ s ∈ c1Resp.data, s.length = 32 ∧
      ∀ ch ∈ s.toList, isLowerHex ch = true) ∧
    c1Resp.hash.length = 64 ∧
    (∀ ch ∈ c1Resp.hash.toList, isLowerHex ch = true) ∧
    (1 = 1 → ∃ s1, c1Resp.data = [s1] ∧
      c1Resp.hash = bytesToHex (testEnv.sha (hexToBytes s1.toList))) :=
  C1_hex_generate testEnv (some "Bearer gs_test")
    { seed := 0, chunks := 1, format := .hex, skip := 0 } c1Resp
    rfl testGen_spec testSha_spec (by decide)

/-! ### Claim C8: the perfect_balance flag -/

/-- The exact-arithmetic content of `abs(heads/100000 - 0.5) < 0.001`: it
holds precisely on the open interval 49900 < heads < 50100 (both boundary
values give exactly 0.001, excluded by the strict comparison). -/
theorem ratio_interval (h : Nat) :
    |(h : ℚ) / 100000 - 1/2| < 1/1000 ↔ 49900 < h ∧ h < 50100 := by
  rw [abs_lt]
  constructor
  · rintro ⟨h1, h2⟩
    constructor
    · by_contra hc
      push_neg at hc
      have hq : (h : ℚ) ≤ 49900 := by exact_mod_cast hc
      linarith
    · by_contra hc
      push_neg at hc
      have hq : (50100 : ℚ) ≤ (h : ℚ) := by exact_mod_cast hc
      linarith
  · rintro ⟨h1, h2⟩
    have q1 : (49900 : ℚ) < (h : ℚ) := by exact_mod_cast h1
    have q2 : (h : ℚ) < (50100 : ℚ) := by exact_mod_cast h2
    constructor <;> linarith

/-- C8: the `perfect_balance` flag is set exactly when the heads ratio is
within 0.001 of exactly 0.5; for flips = 100000 that means heads lies
strictly between 49900 and 50100 (boundaries excluded by the strict
less-than). -/
theorem C8_perfect_balance (gen : Nat → Option (List Nat)) (seed flips : Nat)
    (resp : CoinFlipStatsResponse)
    (h : coinflip_stats gen seed flips = some resp) :
    (resp.perfect_balance = true ↔
      |(resp.heads : ℚ) / (flips : ℚ) - 1/2| < 1/1000) ∧
    (flips = 100000 →
      (resp.perfect_balance = true ↔ 49900 < resp.heads ∧ resp.heads < 50100)) := by
  rw [coinflip_stats] at h
  cases hm : optionMapList gen (List.range (seed + flips)) with
  | none => simp [hm] at h
  | some cs =>
    simp only [hm] at h
    cases hf : firstBytes (cs.drop seed) with
    | none => simp [hf] at h
    | some bs =>
      simp only [hf, Option.some.injEq] at h
      subst h
      constructor
      · exact decide_eq_true_iff
      · intro hflips
        subst hflips
        rw [decide_eq_true_iff]
        have hcast : ((100000 : Nat) : ℚ) = (100000 : ℚ) := by norm_num
        rw [hcast]
        exact ratio_interval _

/-- The concrete coinflip response for two flips of the test generator
(first bytes 0 and 1, so one head and one tail). -/
def coinflipW : CoinFlipStatsResponse :=
  { heads := 1, tails := 1, total := 2, headsFrac := 1/2, perfect_balance := true }

/-- C8 witness: the flag/ratio equivalence evaluated on a concrete run. -/
theorem C8_witness :
    coinflipW.perfect_balance = true ↔
      |(coinflipW.heads : ℚ) / ((2 : Nat) : ℚ) - 1/2| < 1/1000 := by
  have h : coinflip_stats testGen 0 2 = some coinflipW := by
    rw [coinflip_stats]
    have hm : optionMapList testGen (List.range (0 + 2)) =
        some [List.replicate 16 0, List.replicate 16 1] := by decide
    simp only [hm]
    have hf : firstBytes ([List.replicate 16 0, List.replicate 16 1].drop 0) =
        some [0, 1] := by decide
    simp only [hf]
    have hheads : (([0, 1] : List Nat).filter (fun b => b &&& 1 != 0)).length = 1 := by
      decide
    simp only [hheads, coinflipW, Option.some.injEq, CoinFlipStatsResponse.mk.injEq]
    norm_num
  exact (C8_perfect_balance testGen 0 2 coinflipW h).1

/-! ### Claim C4: how often the admission checks run per batch request -/

theorem batchLoop_events_logWrite (env : Env) (cps : Nat) :
    ∀ seeds, ∀ ev ∈ (batchLoop env cps seeds).2, ∃ entry, ev = .logWrite entry := by
  intro seeds
  induction seeds with
  | nil => intro ev hev; simp [batchLoop] at hev
  | cons s rest ih =>
    intro ev hev
    rcases hg : generate env .dependsDefault
        { seed := s, chunks := cps, format := .hex, skip := 0 } with ⟨res, evs⟩
    have hgev := generate_events_logWrite env .dependsDefault
        { seed := s, chunks := cps, format := .hex, skip := 0 }
    rw [hg] at hgev
    cases res with
    | error e =>
      simp only [batchLoop, hg] at hev
      exact hgev ev hev
    | ok r0 =>
      rcases hrec : batchLoop env cps rest with ⟨res2, evs2⟩
      cases res2 with
      | error e2 =>
        simp only [batchLoop, hg, hrec] at hev
        rcases List.mem_append.mp hev with hm | hm
        · exact hgev ev hm
        · exact ih ev (by rw [hrec]; exact hm)
      | ok rs =>
        simp only [batchLoop, hg, hrec] at hev
        rcases List.mem_append.mp hev with hm | hm
        · exact hgev ev hm
        · exact ih ev (by rw [hrec]; exact hm)

theorem batchLoop_ok_results (env : Env) (cps : Nat) :
    ∀ seeds rs, (batchLoop env cps seeds).1 = .ok rs →
      List.Forall₂ (fun s resp => (generate env .dependsDefault
        { seed := s, chunks := cps, format := .hex, skip := 0 }).1 = .ok resp)
        seeds rs := by
  intro seeds
  induction seeds with
  | nil =>
    intro rs h
    injection h with h
    subst h
    exact .nil
  | cons s rest ih =>
    intro rs h
    rcases hg : generate env .dependsDefault
        { seed := s, chunks := cps, format := .hex, skip := 0 } with ⟨res, evs⟩
    cases res with
    | error e => simp [batchLoop, hg] at h
    | ok r0 =>
      rcases hrec : batchLoop env cps rest with ⟨res2, evs2⟩
      cases res2 with
      | error e2 => simp [batchLoop, hg, hrec] at h
      | ok rs' =>
        simp only [batchLoop, hg, hrec] at h
        injection h with h
        subst h
        exact .cons (by rw [hg]) (ih rs' (by rw [hrec]))

theorem counts_zero_of_logWrite (l : List Event)
    (h : ∀ ev ∈ l, ∃ entry, ev = .logWrite entry) :
    l.count .authCheck = 0 ∧ l.count .rateCheck = 0 ∧ l.count .quotaCheck = 0 := by
  refine ⟨List.count_eq_zero.mpr ?_, List.count_eq_zero.mpr ?_,
    List.count_eq_zero.mpr ?_⟩ <;> intro hmem <;>
    obtain ⟨entry, he⟩ := h _ hmem <;> exact Event.noConfusion he

theorem verify_counts (env : Env) (a : Option String) :
    (verify_api_key env a).2.count .authCheck = 1 ∧
    (verify_api_key env a).2.count .rateCheck ≤ 1 ∧
    (verify_api_key env a).2.count .quotaCheck ≤ 1 := by
  rcases verify_trace_shape env a with h | h | h <;> rw [h] <;>
    exact ⟨by decide, by decide, by decide⟩

/-- C4 counterexample: a served batch request with two seeds (demo mode, so
the contained direct calls succeed) runs the dependency — and hence the
authentication check — exactly once, not once per contained seed: the trace
holds one `.authCheck`, not two.  The framework resolves
`Depends(verify_api_key)` once per HTTP request, and `batch_generate` calls
`generate` as a plain Python function, which re-runs no checks. -/
theorem C4_counterexample :
    ([0, 1] : List Nat).length = 2 ∧
    (∃ rs, (batch_generate_route demoEnv (some "Bearer gs_demo_key_12345")
      { seeds := [0, 1], chunks_per_seed := 1 }).1 = .ok rs ∧ rs.length = 2) ∧
    (batch_generate_route demoEnv (some "Bearer gs_demo_key_12345")
      { seeds := [0, 1], chunks_per_seed := 1 }).2.count .authCheck = 1 ∧
    (batch_generate_route demoEnv (some "Bearer gs_demo_key_12345")
      { seeds := [0, 1], chunks_per_seed := 1 }).2.count .authCheck ≠ 2 := by
  refine ⟨rfl, ⟨exceptGet [] (batch_generate_route demoEnv
      (some "Bearer gs_demo_key_12345")
      { seeds := [0, 1], chunks_per_seed := 1 }).1, by decide, by decide⟩,
    by decide, by decide⟩

/-- C4 amended: for every batch request the authentication check runs
exactly once (rate and quota checks at most once), regardless of how many
seeds the batch holds; the contained per-seed calls re-invoke the
single-seed generation path with format fixed to hex but perform no
admission checks of their own. -/
theorem C4_checks_once_per_batch (env : Env) (a : Option String)
    (breq : BatchRequest) :
    (batch_generate_route env a breq).2.count .authCheck = 1 ∧
    (batch_generate_route env a breq).2.count .rateCheck ≤ 1 ∧
    (batch_generate_route env a breq).2.count .quotaCheck ≤ 1 ∧
    (∀ rs, (batch_generate_route env a breq).1 = .ok rs →
      List.Forall₂ (fun s resp => (generate env .dependsDefault
        { seed := s, chunks := breq.chunks_per_seed, format := .hex, skip := 0 }).1
        = .ok resp) breq.seeds rs) := by
  obtain ⟨hc1, hc2, hc3⟩ := verify_counts env a
  rcases hv : verify_api_key env a with ⟨res, evs⟩
  have hevs : (verify_api_key env a).2 = evs := by rw [hv]
  rw [hevs] at hc1 hc2 hc3
  cases res with
  | error e =>
    simp only [batch_generate_route, hv]
    exact ⟨hc1, hc2, hc3, fun rs hrs => absurd hrs (by simp)⟩
  | ok p =>
    cases hga : env.genAvail with
    | false =>
      simp only [batch_generate_route, hv, hga]
      exact ⟨hc1, hc2, hc3, fun rs hrs => absurd hrs (by simp)⟩
    | true =>
      simp only [batch_generate_route, hv, hga, Bool.not_true, Bool.false_eq_true,
        if_false]
      obtain ⟨z1, z2, z3⟩ := counts_zero_of_logWrite _
        (batchLoop_events_logWrite env breq.chunks_per_seed breq.seeds)
      refine ⟨?_, ?_, ?_, ?_⟩
      · rw [List.count_append, hc1, z1]
      · rw [List.count_append, z2]
        simpa using hc2
      · rw [List.count_append, z3]
        simpa using hc3
      · intro rs hrs
        exact batchLoop_ok_results env breq.chunks_per_seed breq.seeds rs hrs

/-- C4 witness: the once-per-batch counts and the per-seed hex results on a
concrete two-seed batch request. -/
theorem C4_witness :
    (batch_generate_route demoEnv (some "Bearer gs_demo_key_12345")
      { seeds := [2, 3], chunks_per_seed := 1 }).2.count .authCheck = 1 ∧
    (batch_generate_route demoEnv (some "Bearer gs_demo_key_12345")
      { seeds := [2, 3], chunks_per_seed := 1 }).2.count .rateCheck ≤ 1 ∧
    (batch_generate_route demoEnv (some "Bearer gs_demo_key_12345")
      { seeds := [2, 3], chunks_per_seed := 1 }).2.count .quotaCheck ≤ 1 ∧
    List.Forall₂ (fun s resp => (generate demoEnv .dependsDefault
      { seed := s, chunks := 1, format := .hex, skip := 0 }).1 = .ok resp)
      [2, 3]
      (exceptGet [] (batch_generate_route demoEnv (some "Bearer gs_demo_key_12345")
        { seeds := [2, 3], chunks_per_seed := 1 }).1) := by
  obtain ⟨h1, h2, h3, h4⟩ := C4_checks_once_per_batch demoEnv
    (some "Bearer gs_demo_key_12345") { seeds := [2, 3], chunks_per_seed := 1 }
  exact ⟨h1, h2, h3, h4 _ (by decide)⟩

end GoldenSeed
